import Mathlib

/-!
Verification development for the release-drafting engine
(`lib/releases.js` and its callers).

The JavaScript source is shallowly embedded below.  Strings are modelled as
Lean `String`s and manipulated through their underlying `List Char`
(JavaScript indexes strings by UTF-16 code units; for the ASCII data handled
here the two views agree).  JavaScript `undefined`/`null` fields are
modelled with `Option`.  Functions from third-party npm libraries that the
source calls (`compare-versions`, `semver`) are embedded from those
libraries' documented semantics; functions of this repository that are not
part of the analysed source (`getVersionInfo` from `versions.js`, the
`template` renderer) are taken as parameters or modelled from the spec, as
marked on each definition.
-/

namespace ReleaseDrafter

/-! ### Character and string helpers -/

/-- The backtick character (code point 96). -/
def btick : Char := Char.ofNat 96

/-- Whitespace for JavaScript's `String.prototype.trim` and `parseInt`:
WhiteSpace and LineTerminator code points. -/
def isJsWhitespace (c : Char) : Bool :=
  c = ' ' || c = '\t' || c = '\n' || c = Char.ofNat 11 || c = Char.ofNat 12 ||
  c = '\r' || c = Char.ofNat 0xa0 || c = Char.ofNat 0x1680 ||
  (0x2000 ≤ c.toNat && c.toNat ≤ 0x200a) || c = Char.ofNat 0x2028 ||
  c = Char.ofNat 0x2029 || c = Char.ofNat 0x202f || c = Char.ofNat 0x205f ||
  c = Char.ofNat 0x3000 || c = Char.ofNat 0xfeff

/-- JavaScript `String.prototype.trim`: drop whitespace from both ends. -/
def jsTrimChars (l : List Char) : List Char :=
  ((l.dropWhile isJsWhitespace).reverse.dropWhile isJsWhitespace).reverse

/-- `trim()` on a string. -/
def jsTrim (s : String) : String := ⟨jsTrimChars s.data⟩

/-- ASCII decimal digit. -/
def isDigitChar (c : Char) : Bool := '0' ≤ c && c ≤ '9'

/-- Numeric value of a decimal digit string (leading zeros allowed, as in
`parseInt`). -/
def digitsToNat (l : List Char) : Nat :=
  l.foldl (fun acc c => 10 * acc + (c.toNat - 48)) 0

/-- JavaScript `parseInt(v, 10)`: skip whitespace, optional sign, then the
longest leading run of decimal digits; `none` models `NaN`. -/
def jsParseInt10 (s : String) : Option Int :=
  let l := s.data.dropWhile isJsWhitespace
  let core : List Char → Option Nat := fun l' =>
    let ds := l'.takeWhile isDigitChar
    if ds.isEmpty then none else some (digitsToNat ds)
  match l with
  | '-' :: rest => (core rest).map (fun n => -(n : Int))
  | '+' :: rest => (core rest).map (fun n => (n : Int))
  | _ => (core l).map (fun n => (n : Int))

/-- Lexicographic comparison of character lists by code point, the order
JavaScript's `<`/`>` induce on (ASCII) strings. -/
def charListCompare : List Char → List Char → Int
  | [], [] => 0
  | [], _ :: _ => -1
  | _ :: _, [] => 1
  | a :: as, b :: bs =>
    if a.toNat < b.toNat then -1
    else if b.toNat < a.toNat then 1
    else charListCompare as bs

/-- Three-way comparison of naturals as `-1/0/1`. -/
def natCompare (a b : Nat) : Int := if a < b then -1 else if b < a then 1 else 0

/-- Split a character list on `'.'`, like JavaScript `String.prototype.split('.')`. -/
def splitOnDot : List Char → List (List Char)
  | [] => [[]]
  | c :: rest =>
    if c = '.' then [] :: splitOnDot rest
    else
      match splitOnDot rest with
      | [] => [[c]]
      | g :: gs => (c :: g) :: gs

/-! ### The `compare-versions` npm library

`sortReleases` compares tags with `compareVersions` from the
`compare-versions` package and falls back to timestamps when it throws.
The library validates against
`/^[v^~<>=]*?(\d+)(?:\.([x*]|\d+)(?:\.([x*]|\d+)(?:-([\da-z\-]+(?:\.[\da-z\-]+)*))?(?:\+[\da-z\-]+(?:\.[\da-z\-]+)*)?)?)?$/i`
and compares the numeric core segment-wise (missing segments read as `'0'`,
wildcards equal to anything), then the dot-separated pre-release
identifiers (`parseInt`-coerced when numeric; a version with a pre-release
sorts below one without).  `none` models the exception thrown on a string
that fails validation. -/

/-- A captured core segment: a wildcard character or a digit run. -/
inductive CvSeg where
  | wild : CvSeg
  | digits (s : List Char) : CvSeg
  deriving DecidableEq, Repr

/-- The capture groups of the `compare-versions` validation regex. -/
structure CvParsed where
  major : List Char
  minor : Option CvSeg
  patch : Option CvSeg
  pre : Option (List String)
  deriving DecidableEq, Repr

/-- Characters allowed in pre-release/build identifiers (`[\da-z\-]` with `/i`). -/
def isCvPreChar (c : Char) : Bool :=
  isDigitChar c || ('a' ≤ c && c ≤ 'z') || ('A' ≤ c && c ≤ 'Z') || c = '-'

/-- Characters the leading `[v^~<>=]*?` may absorb (case-insensitive). -/
def isCvLead (c : Char) : Bool :=
  c = 'v' || c = 'V' || c = '^' || c = '~' || c = '<' || c = '>' || c = '='

/-- A single wildcard character `[x*]` (case-insensitive). -/
def isWildChar (c : Char) : Bool := c = 'x' || c = 'X' || c = '*'

/-- Parse one core segment `([x*]|\d+)`. -/
def cvSegParse : List Char → Option (CvSeg × List Char)
  | [] => none
  | c :: rest =>
    if isWildChar c then some (.wild, rest)
    else
      let ds := (c :: rest).takeWhile isDigitChar
      if ds.isEmpty then none else some (.digits ds, (c :: rest).drop ds.length)

/-- Validate a dot-separated identifier chain (`[\da-z\-]+(\.[\da-z\-]+)*`)
that must consume the whole input, as in the build-metadata tail. -/
def cvBuildOk (l : List Char) : Bool :=
  !l.isEmpty && l.all (fun c => isCvPreChar c || c = '.') &&
    (splitOnDot l).all (fun g => !g.isEmpty)

/-- Validate the tail after the patch segment: optional `-prerelease`
followed by optional `+build`, then end of string.  Returns the captured
pre-release identifiers. -/
def cvTail (l : List Char) : Option (Option (List String)) :=
  match l with
  | [] => some none
  | '+' :: r => if cvBuildOk r then some none else none
  | '-' :: r =>
    let run := r.takeWhile (fun c => isCvPreChar c || c = '.')
    let rest := r.drop run.length
    if run.isEmpty then none
    else if (splitOnDot run).all (fun g => !g.isEmpty) then
      let ids := (splitOnDot run).map (fun g => (⟨g⟩ : String))
      match rest with
      | [] => some (some ids)
      | '+' :: r2 => if cvBuildOk r2 then some (some ids) else none
      | _ => none
    else none
  | _ => none

/-- `validateAndParse` of `compare-versions`: match the semver-ish regex,
returning the capture groups, or `none` for the thrown error. -/
def cvValidate (v : String) : Option CvParsed :=
  let l := v.data.dropWhile isCvLead
  let majDs := l.takeWhile isDigitChar
  if majDs.isEmpty then none
  else
    match l.drop majDs.length with
    | [] => some ⟨majDs, none, none, none⟩
    | '.' :: r2 =>
      match cvSegParse r2 with
      | none => none
      | some (minorSeg, rest2) =>
        match rest2 with
        | [] => some ⟨majDs, some minorSeg, none, none⟩
        | '.' :: r3 =>
          match cvSegParse r3 with
          | none => none
          | some (patchSeg, rest3) =>
            match cvTail rest3 with
            | none => none
            | some pre => some ⟨majDs, some minorSeg, some patchSeg, pre⟩
        | _ => none
    | _ => none

/-- `compareStrings` of `compare-versions` on two core segments:
wildcards compare equal to everything, digit runs by numeric value. -/
def cvSegCompare : CvSeg → CvSeg → Int
  | .wild, _ => 0
  | _, .wild => 0
  | .digits a, .digits b => natCompare (digitsToNat a) (digitsToNat b)

/-- `compareSegments` over two equal-length core segment lists. -/
def cvSegListCompare : List CvSeg → List CvSeg → Int
  | a :: as, b :: bs =>
    if cvSegCompare a b ≠ 0 then cvSegCompare a b else cvSegListCompare as bs
  | _, _ => 0

/-- The three core segments of a parse, missing ones reading `'0'`
(`n[i] || '0'`). -/
def cvCoreSegs (p : CvParsed) : List CvSeg :=
  [CvSeg.digits p.major, p.minor.getD (.digits ['0']), p.patch.getD (.digits ['0'])]

/-- `compareSegments` over the three core segments (missing ones read `'0'`). -/
def cvCompareCore (p q : CvParsed) : Int :=
  cvSegListCompare (cvCoreSegs p) (cvCoreSegs q)

/-- `compareStrings` of `compare-versions` on pre-release identifiers:
wildcards equal, `parseInt`-coercible identifiers numerically, otherwise
string comparison (a number against a string compares via `String(n)`). -/
def cvCompareStrings (a b : String) : Int :=
  if a = "*" || a = "x" || a = "X" || b = "*" || b = "x" || b = "X" then 0
  else
    match jsParseInt10 a, jsParseInt10 b with
    | some na, some nb => if na < nb then -1 else if nb < na then 1 else 0
    | some na, none => charListCompare (toString na).data b.data
    | none, some nb => charListCompare a.data (toString nb).data
    | none, none => charListCompare a.data b.data

/-- `compareSegments` over pre-release identifier lists (missing reads `'0'`). -/
def cvComparePre : List String → List String → Int
  | [], [] => 0
  | [], b :: bs =>
    let r := cvCompareStrings "0" b
    if r ≠ 0 then r else cvComparePre [] bs
  | a :: as, [] =>
    let r := cvCompareStrings a "0"
    if r ≠ 0 then r else cvComparePre as []
  | a :: as, b :: bs =>
    let r := cvCompareStrings a b
    if r ≠ 0 then r else cvComparePre as bs

/-- `compareVersions(v1, v2)`; `none` models a thrown validation error. -/
def compareVersions (v1 v2 : String) : Option Int :=
  match cvValidate v1, cvValidate v2 with
  | some p1, some p2 =>
    let r := cvCompareCore p1 p2
    if r ≠ 0 then some r
    else
      match p1.pre, p2.pre with
      | some a, some b => some (cvComparePre a b)
      | some _, none => some (-1)
      | none, some _ => some 1
      | none, none => some 0
  | _, _ => none

/-! ### Releases and `sortReleases` -/

/-- A release as fetched from the hosting platform (the fields the engine
reads). -/
structure Release where
  tag_name : String
  created_at : Int
  target_commitish : String
  draft : Bool
  prerelease : Bool
  body : Option String
  deriving DecidableEq, Repr

/-- `tag_name.replace(new RegExp('^' + regexEscape(tagPrefix)), '')`:
remove one leading occurrence of the (literal) tag prefix. -/
def stripTagPref (tagPref : String) (tag : String) : String :=
  if tagPref.data.isPrefixOf tag.data then ⟨tag.data.drop tagPref.data.length⟩ else tag

/-- The comparator passed to `releases.sort`: `compareVersions` on the
prefix-stripped tags, falling back to the creation-timestamp difference
when `compareVersions` throws. -/
def releaseCompare (tagPref : String) (r1 r2 : Release) : Int :=
  match compareVersions (stripTagPref tagPref r1.tag_name) (stripTagPref tagPref r2.tag_name) with
  | some c => c
  | none => r1.created_at - r2.created_at

/-- `r1` sorts no later than `r2` under the JavaScript comparator. -/
def releaseLe (tagPref : String) (r1 r2 : Release) : Bool :=
  releaseCompare tagPref r1 r2 ≤ 0

/-- Insert into a sorted list, before the first element the new one
compares `≤` to — the placement a stable sort gives. -/
def sortInsert (le : α → α → Bool) (x : α) : List α → List α
  | [] => [x]
  | y :: l => if le x y then x :: y :: l else y :: sortInsert le x l

/-- A stable sort.  ECMAScript requires `Array.prototype.sort` to be
stable, so for a consistent comparator this is exactly the sort the
engine observes. -/
def stableSort (le : α → α → Bool) : List α → List α
  | [] => []
  | x :: l => sortInsert le x (stableSort le l)

/-- `sortReleases(releases, tagPrefix)`. -/
def sortReleases (releases : List Release) (tagPref : String) : List Release :=
  stableSort (releaseLe tagPref) releases

/-! ### The PR marker and `findReleases` -/

/-- The literal head of `PR_MARKER_REGEX`. -/
def markerHead : List Char := "<!-- pr-number: ".data

/-- Match `PR_MARKER_REGEX` (`<!-- pr-number: (\d+) -->`) anchored at the
head of the list, returning the captured number. -/
def markerMatchAt (l : List Char) : Option Nat :=
  if markerHead.isPrefixOf l then
    let rest := l.drop markerHead.length
    let ds := rest.takeWhile isDigitChar
    if ds.isEmpty then none
    else if " -->".data.isPrefixOf (rest.drop ds.length) then some (digitsToNat ds)
    else none
  else none

/-- Leftmost match of `PR_MARKER_REGEX` in a body, as `body.match` finds it. -/
def findPrMarker : List Char → Option Nat
  | [] => none
  | c :: rest =>
    match markerMatchAt (c :: rest) with
    | some n => some n
    | none => findPrMarker rest

/-- `refs/heads/branch` and `branch` are the same thing: strip the
`refs/heads/` prefix. -/
def stripHeadsRef (s : String) : String :=
  if "refs/heads/".data.isPrefixOf s.data then ⟨s.data.drop 11⟩ else s

/-- The pair `findReleases` returns. -/
structure FindReleasesResult where
  prSpecificRelease : Option Release
  lastRelease : Option Release
  deriving DecidableEq, Repr

/-- The body-marker filter used for the PR-specific candidate releases. -/
def matchesPrNumber (prNumber : Option Nat) (r : Release) : Bool :=
  match r.body with
  | none => false
  | some b =>
    match findPrMarker b.data with
    | none => false
    | some n => some n = prNumber

/-- The commitish filter of `findReleases`: when requested, keep releases
whose target branch, modulo a `refs/heads/` prefix, equals the configured
target. -/
def commitishFilter (targetCommitish : String) (filterByCommitish : Bool)
    (releases : List Release) : List Release :=
  if filterByCommitish then
    releases.filter (fun r => stripHeadsRef targetCommitish = stripHeadsRef r.target_commitish)
  else releases

/-- The tag-prefix filter of `findReleases`: when a prefix is configured
(non-empty, i.e. truthy), keep releases whose tag starts with it. -/
def prefFilter (tagPref : String) (releases : List Release) : List Release :=
  if tagPref ≠ "" then
    releases.filter (fun r => tagPref.data.isPrefixOf r.tag_name.data)
  else releases

/-- The selection logic of `findReleases`, applied to the fully fetched
release list (pagination, capped at 1000 entries, happens outside). -/
def findReleases (targetCommitish : String) (filterByCommitish : Bool)
    (includePreReleases : Bool) (tagPref : String) (prNumber : Option Nat)
    (isPrereleaseRun : Bool) (releases : List Release) : FindReleasesResult :=
  let sortedSelectedReleases :=
    sortReleases (prefFilter tagPref (commitishFilter targetCommitish filterByCommitish releases))
      tagPref
  let lastReleaseFilter :=
    sortedSelectedReleases.filter (fun r => !r.draft && (!r.prerelease || includePreReleases))
  let lastRelease := lastReleaseFilter.getLast?
  let prSpecificRelease :=
    if isPrereleaseRun && !sortedSelectedReleases.isEmpty then
      (sortedSelectedReleases.filter (matchesPrNumber prNumber)).getLast?
    else none
  ⟨prSpecificRelease, lastRelease⟩

/-! ### Versions with a plain numeric comparison key

On tags whose stripped form parses with all-numeric segments and no
pre-release part, `compareVersions` is a lexicographic comparison of the
`(major, minor, patch)` triple.  These definitions extract that triple;
they are used to state when the hybrid sort comparator is a linear order. -/

/-- Numeric value of a core segment; `none` on a wildcard. -/
def segNum : Option CvSeg → Option Nat
  | none => some 0
  | some (.digits ds) => some (digitsToNat ds)
  | some .wild => none

/-- The `(major, minor, patch)` triple of a parse with no wildcard and no
pre-release part. -/
def parsedKey (p : CvParsed) : Option (Nat × Nat × Nat) :=
  match p.pre with
  | some _ => none
  | none =>
    match segNum p.minor, segNum p.patch with
    | some m, some q => some (digitsToNat p.major, m, q)
    | _, _ => none

/-- The numeric comparison key of a version string, when it has one. -/
def cvNumericKey (v : String) : Option (Nat × Nat × Nat) :=
  (cvValidate v).bind parsedKey

/-- Lexicographic three-way comparison of numeric keys. -/
def keyCompare (k1 k2 : Nat × Nat × Nat) : Int :=
  if k1.1 < k2.1 then -1
  else if k2.1 < k1.1 then 1
  else if k1.2.1 < k2.2.1 then -1
  else if k2.2.1 < k1.2.1 then 1
  else if k1.2.2 < k2.2.2 then -1
  else if k2.2.2 < k1.2.2 then 1
  else 0

/-! Two concrete releases whose tags are distinct strings but compare
equal under `compareVersions` (the library ignores a leading `v`). -/

/-- A published release tagged `1.0.0`. -/
def cexA : Release := ⟨"1.0.0", 0, "main", false, false, none⟩

/-- A published release tagged `v1.0.0`, created later. -/
def cexB : Release := ⟨"v1.0.0", 1, "main", false, false, none⟩

/-- A release tagged `v1.0.0` for the witness of the amended claim C5. -/
def wrA : Release := ⟨"v1.0.0", 0, "main", false, false, none⟩

/-- A release tagged `v1.2.0` for the witness of the amended claim C5. -/
def wrB : Release := ⟨"v1.2.0", 5, "main", false, false, none⟩

/-! ### Pull requests, configuration, and `resolveVersionKeyIncrement` -/

/-- A merged pull request.  `labels` models `labels.nodes[].name`; fields
that only feed the abstracted body rendering (author, url, branches) are
not read by the embedded logic and are omitted. -/
structure PullRequest where
  number : Nat
  title : String
  labels : List String
  deriving DecidableEq, Repr

/-- One entry of the configuration's `categories` list. -/
structure CategoryConfig where
  title : String
  labels : List String
  collapseAfter : Nat
  deriving DecidableEq, Repr

/-- The `version-resolver` configuration: trigger labels per bump class
and the default class. -/
structure VersionResolverConfig where
  majorLabels : List String
  minorLabels : List String
  patchLabels : List String
  defaultKey : String
  deriving DecidableEq, Repr

/-- The resolver configuration fields the embedded functions read.
String-valued options model their JavaScript truthiness with `""` for an
unset value. -/
structure Config where
  excludeLabels : List String
  includeLabels : List String
  categories : List CategoryConfig
  versionResolver : VersionResolverConfig
  prereleaseIdentifier : String
  tagPref : String
  versionTemplate : String
  tagTemplate : String
  nameTemplate : String
  changeTitleEscapes : String
  deriving DecidableEq, Repr

/-- `getFilterExcludedPullRequests(excludeLabels)`: drop a pull request
when any of its labels is excluded. -/
def filterExcludedPullRequests (excludeLabels : List String) (pr : PullRequest) : Bool :=
  !(pr.labels.any (fun l => excludeLabels.contains l))

/-- `getFilterIncludedPullRequests(includeLabels)`: with a non-empty
include list, keep only pull requests carrying one of those labels. -/
def filterIncludedPullRequests (includeLabels : List String) (pr : PullRequest) : Bool :=
  includeLabels.isEmpty || pr.labels.any (fun l => includeLabels.contains l)

/-- `labelToKeyMap[label]`.  `Object.fromEntries` lets later entries win,
and the map is built from the patch, minor, then major lists. -/
def labelToKey (vr : VersionResolverConfig) (label : String) : Option String :=
  if vr.majorLabels.contains label then some "major"
  else if vr.minorLabels.contains label then some "minor"
  else if vr.patchLabels.contains label then some "patch"
  else none

/-- `priorityMap` (`patch: 1, minor: 2, major: 3`). -/
def priorityOf (key : String) : Nat :=
  if key = "patch" then 1 else if key = "minor" then 2 else if key = "major" then 3 else 0

/-- `resolveVersionKeyIncrement(mergedPullRequests, config, isPreRelease)`.
`Math.max` of an empty list is `-Infinity`, which matches no priority;
`0` plays that role here since every priority is positive. -/
def resolveVersionKeyIncrement (mergedPullRequests : List PullRequest) (config : Config)
    (isPreRelease : Bool) : String :=
  let keys :=
    ((mergedPullRequests.filter (filterExcludedPullRequests config.excludeLabels)).filter
        (filterIncludedPullRequests config.includeLabels)).flatMap
      (fun pr => pr.labels.filterMap (labelToKey config.versionResolver))
  let keyPriorities := keys.map priorityOf
  let priority := keyPriorities.foldr max 0
  let versionKey := ["patch", "minor", "major"].find? (fun k => priorityOf k = priority)
  let versionKeyIncrement := versionKey.getD config.versionResolver.defaultKey
  if isPreRelease && config.prereleaseIdentifier ≠ "" then "pre" ++ versionKeyIncrement
  else versionKeyIncrement

/-- The spec's reading of the bump-class resolution (§4.2): the
highest-priority class (major > minor > patch) among the trigger labels
present across the filtered changes, or the configured default when none
matches. -/
def highestBumpClass (mergedPullRequests : List PullRequest) (config : Config) : String :=
  let filtered :=
    (mergedPullRequests.filter (filterExcludedPullRequests config.excludeLabels)).filter
      (filterIncludedPullRequests config.includeLabels)
  if ∃ pr ∈ filtered, ∃ l ∈ pr.labels, labelToKey config.versionResolver l = some "major" then
    "major"
  else if ∃ pr ∈ filtered, ∃ l ∈ pr.labels, labelToKey config.versionResolver l = some "minor" then
    "minor"
  else if ∃ pr ∈ filtered, ∃ l ∈ pr.labels, labelToKey config.versionResolver l = some "patch" then
    "patch"
  else config.versionResolver.defaultKey

/-- A concrete configuration for witnesses: `bug` triggers a patch bump,
`breaking` a major bump, default `minor`, categories for `bug` and
`feature`. -/
def cfgW : Config :=
  { excludeLabels := ["skip-changelog"]
    includeLabels := []
    categories := [⟨"Bug Fixes", ["bug"], 0⟩, ⟨"Features", ["feature"], 0⟩]
    versionResolver := ⟨["breaking"], [], ["bug"], "minor"⟩
    prereleaseIdentifier := "beta"
    tagPref := "v"
    versionTemplate := "$MAJOR.$MINOR.$PATCH"
    tagTemplate := "v$RESOLVED_VERSION"
    nameTemplate := "v$RESOLVED_VERSION"
    changeTitleEscapes := "" }

/-- A pull request labelled only with the patch-class trigger label. -/
def prW1 : PullRequest := ⟨1, "fix a bug", ["bug"]⟩

/-- A pull request labelled only with the major-class trigger label. -/
def prW2 : PullRequest := ⟨2, "break everything", ["breaking"]⟩

/-! ### `categorizePullRequests` -/

/-- A category together with the pull requests accumulated for it
(`{ ...category, pullRequests: [] }` and subsequent pushes). -/
structure CategorizedCategory where
  title : String
  labels : List String
  collapseAfter : Nat
  pullRequests : List PullRequest
  deriving DecidableEq, Repr

/-- `allCategoryLabels`: the union of all categories' trigger labels. -/
def allCategoryLabels (categories : List CategoryConfig) : List String :=
  categories.flatMap (fun c => c.labels)

/-- The routing test of `filterUncategorizedPullRequests`: no labels at
all, or no label inside any category's trigger set. -/
def isUncategorized (categories : List CategoryConfig) (pr : PullRequest) : Bool :=
  pr.labels.isEmpty ||
    !(pr.labels.any (fun l => (allCategoryLabels categories).contains l))

/-- `categorizePullRequests(pullRequests, config)`, returning the
uncategorized bucket and the per-category lists.  The source runs the
exclude, include, and uncategorized filters in one pass — routing
uncategorized changes either to the separate bucket or, when a category
with an empty trigger list exists, into that category — and then appends
to each category every remaining change carrying one of its labels
(deliberately duplicating a change across categories). -/
def categorizePullRequests (pullRequests : List PullRequest) (config : Config) :
    List PullRequest × List CategorizedCategory :=
  let uncategorizedCategoryIndex := config.categories.findIdx? (fun c => c.labels.isEmpty)
  let afterIncl :=
    (pullRequests.filter (filterExcludedPullRequests config.excludeLabels)).filter
      (filterIncludedPullRequests config.includeLabels)
  let uncategorizedPullRequests :=
    if uncategorizedCategoryIndex = none then
      afterIncl.filter (isUncategorized config.categories)
    else []
  let filteredPullRequests := afterIncl.filter (fun pr => !(isUncategorized config.categories pr))
  let categorizedPullRequests := config.categories.enum.map (fun ic =>
    { title := ic.2.title, labels := ic.2.labels, collapseAfter := ic.2.collapseAfter,
      pullRequests :=
        (if uncategorizedCategoryIndex = some ic.1 then
          afterIncl.filter (isUncategorized config.categories)
        else [])
        ++ filteredPullRequests.filter (fun pr =>
            pr.labels.any (fun l => ic.2.labels.contains l)) : CategorizedCategory })
  (uncategorizedPullRequests, categorizedPullRequests)

/-- A pull request carrying the trigger labels of two distinct categories
of `cfgW`. -/
def prDual : PullRequest := ⟨4, "fix and feature", ["bug", "feature"]⟩

/-- A pull request carrying the trigger labels of two categories of
`cfgW` together with its excluded label `skip-changelog`. -/
def prExcl : PullRequest := ⟨5, "dual but excluded", ["bug", "feature", "skip-changelog"]⟩

/-! ### `escapeTitle` -/

/-- Line terminators, which `.` in a JavaScript regex does not match. -/
def isLineTerminator (c : Char) : Bool :=
  c = '\n' || c = '\r' || c = Char.ofNat 0x2028 || c = Char.ofNat 0x2029

/-- The index of the closing backtick that the lazy span alternative can
reach from the character after an opening backtick: the first backtick,
provided no line terminator comes before it (`.` matches neither). -/
def findCodeSpanClose : List Char → Option Nat
  | [] => none
  | c :: rest =>
    if c = btick then some 0
    else if isLineTerminator c then none
    else (findCodeSpanClose rest).map (fun i => i + 1)

/-- The replacement callback on a single-character match: `@` and `#` are
followed by the zero-width HTML comment, every other character is
backslash-escaped (multi-character span matches are returned unchanged
before this is reached). -/
def escapeMatchChar (c : Char) : List Char :=
  if c = '@' || c = '#' then c :: "<!---->".data else ['\\', c]

/-- One global pass of
`title.replace(new RegExp('[' + regexEscape(escapes) + ']|' + spanAlt, 'g'), cb)`
where `spanAlt` is a lazy backtick-delimited span: at each position the
character class is tried first, then the span, which the callback passes
through unchanged; unmatched characters are copied.  `fuel` only bounds
the recursion (each step consumes at least one character), so
`l.length` is always enough. -/
def escapeTitleChars (esc : List Char) : Nat → List Char → List Char
  | _, [] => []
  | 0, l => l
  | fuel + 1, c :: rest =>
    if esc.contains c then escapeMatchChar c ++ escapeTitleChars esc fuel rest
    else if c = btick then
      match findCodeSpanClose rest with
      | some i =>
        btick :: (rest.take i ++ btick :: escapeTitleChars esc fuel (rest.drop (i + 1)))
      | none => c :: escapeTitleChars esc fuel rest
    else c :: escapeTitleChars esc fuel rest

/-- `escapeTitle(title)` with escape set `config['change-title-escapes']`. -/
def escapeTitle (escapes : String) (title : String) : String :=
  ⟨escapeTitleChars escapes.data title.data.length title.data⟩

/-- The claim's reading of the escaping rule: a backtick-delimited code
span is always passed through verbatim; outside spans, characters of the
escape set are escaped (`@`/`#` by the zero-width comment, the rest by a
backslash) and all other characters are copied. -/
def escapeTitleClaimChars (esc : List Char) : Nat → List Char → List Char
  | _, [] => []
  | 0, l => l
  | fuel + 1, c :: rest =>
    if c = btick then
      match findCodeSpanClose rest with
      | some i =>
        btick :: (rest.take i ++ btick :: escapeTitleClaimChars esc fuel (rest.drop (i + 1)))
      | none =>
        if esc.contains c then escapeMatchChar c ++ escapeTitleClaimChars esc fuel rest
        else c :: escapeTitleClaimChars esc fuel rest
    else if esc.contains c then escapeMatchChar c ++ escapeTitleClaimChars esc fuel rest
    else c :: escapeTitleClaimChars esc fuel rest

/-- `escapeTitle` as the claim describes it. -/
def escapeTitleClaim (escapes : String) (title : String) : String :=
  ⟨escapeTitleClaimChars escapes.data title.data.length title.data⟩

/-! ### The npm `semver` library: `parse`

`generateReleaseInfo` parses the found draft's tag with `semver.parse`,
which trims the input, allows one leading `v`, requires three numeric
components without leading zeros, an optional dot-separated pre-release
(numeric identifiers, without leading zeros, become numbers) and optional
build metadata.  `parse` returns `null` (here `none`) on anything
invalid rather than throwing. -/

/-- A pre-release identifier as `semver` stores it. -/
inductive PreId where
  | num (n : Nat) : PreId
  | str (s : String) : PreId
  deriving DecidableEq, Repr

/-- The fields of a parsed `semver` version that the engine reads. -/
structure SemVerParsed where
  major : Nat
  minor : Nat
  patch : Nat
  prerelease : List PreId
  deriving DecidableEq, Repr

/-- Parse one numeric core component: a digit run without leading zeros. -/
def parseNumId (l : List Char) : Option (Nat × List Char) :=
  let ds := l.takeWhile isDigitChar
  if ds.isEmpty then none
  else if ds.length > 1 && ds.head? = some '0' then none
  else some (digitsToNat ds, l.drop ds.length)

/-- Characters allowed in `semver` pre-release/build identifiers. -/
def isSemverIdChar (c : Char) : Bool :=
  isDigitChar c || ('a' ≤ c && c ≤ 'z') || ('A' ≤ c && c ≤ 'Z') || c = '-'

/-- Classify one pre-release identifier: all-digit identifiers (no leading
zeros) are numeric, the rest are strings; an empty identifier is invalid. -/
def classifyPreId (ds : List Char) : Option PreId :=
  if ds.isEmpty then none
  else if ds.all isDigitChar then
    if ds.length > 1 && ds.head? = some '0' then none
    else some (.num (digitsToNat ds))
  else if ds.all isSemverIdChar then some (.str ⟨ds⟩)
  else none

/-- Validate `semver` build metadata (after `+`): non-empty dot-separated
identifiers. -/
def semverBuildOk (l : List Char) : Bool :=
  !l.isEmpty && l.all (fun c => isSemverIdChar c || c = '.') &&
    (splitOnDot l).all (fun g => !g.isEmpty)

/-- Parse the tail after the patch component: optional `-prerelease`,
optional `+build`, end of string. -/
def semverTail : List Char → Option (List PreId)
  | [] => some []
  | '+' :: r => if semverBuildOk r then some [] else none
  | '-' :: r =>
    let run := r.takeWhile (fun c => isSemverIdChar c || c = '.')
    let rest := r.drop run.length
    match (splitOnDot run).mapM classifyPreId with
    | none => none
    | some ids =>
      match rest with
      | [] => some ids
      | '+' :: r2 => if semverBuildOk r2 then some ids else none
      | _ => none
  | _ => none

/-- `semver.parse(version)`; `none` models the `null` result on invalid
input.  (`semver` also rejects numeric components above
`Number.MAX_SAFE_INTEGER`; the tags handled here are far below it.) -/
def semverParse (v : String) : Option SemVerParsed :=
  let l0 := jsTrimChars v.data
  let l := match l0 with
    | 'v' :: rest => rest
    | _ => l0
  match parseNumId l with
  | none => none
  | some (maj, r1) =>
    match r1 with
    | '.' :: r2 =>
      match parseNumId r2 with
      | none => none
      | some (mnr, r3) =>
        match r3 with
        | '.' :: r4 =>
          match parseNumId r4 with
          | none => none
          | some (pat, r5) => (semverTail r5).map (fun pre => ⟨maj, mnr, pat, pre⟩)
        | _ => none
    | _ => none

/-! ### `generateReleaseInfo`

The body below follows `generateReleaseInfo` line by line.  Two
collaborators are taken as function parameters: `gvi` stands for
`getVersionInfo` from `versions.js` (not part of the analysed source) and
`tmpl` for the `template` renderer applied to a token map
(out of scope per the spec, assumed to be a pure literal `$TOKEN`
substitution); `renderBody` abstracts the rendering of
`config.header + config.template + config.footer` against the body token
map (`$PREVIOUS_TAG`, `$CHANGES`, `$CONTRIBUTORS`, `$OWNER`,
`$REPOSITORY`, custom replacers — all fixed by the arguments — spread with
the standard-path version-info object it receives).

One detail of the source matters throughout: inside the pre-release
reconciliation branch, line 507 declares `const versionInfo = ...`,
which shadows the outer `let versionInfo = null` of line 460, and the
assignment that the comment "Prevent standard version calculation below"
refers to is commented out.  The outer variable therefore remains `null`
on every path, and the guard `if (versionInfo === null)` of the standard
calculation always passes. -/

/-- The `$RESOLVED_VERSION` object inside the token map returned by
`getVersionInfo`; the engine reads and updates these fields. -/
structure ResolvedVersion where
  version : String
  major : Nat
  minor : Nat
  patch : Nat
  prerelease : String
  complete : String
  deriving DecidableEq, Repr

/-- The token map returned by `getVersionInfo`: the `$RESOLVED_VERSION`
object plus the remaining version tokens, which the engine passes through
to the renderer untouched. -/
structure VersionInfo where
  resolvedVersion : Option ResolvedVersion
  others : List (String × String)
  deriving DecidableEq, Repr

/-- The arguments of `generateReleaseInfo` read by the embedded logic
(`commits` and the repository owner/name feed only the abstracted body
rendering). -/
structure GenArgs where
  config : Config
  lastRelease : Option Release
  mergedPullRequests : List PullRequest
  version : Option String
  tag : Option String
  name : Option String
  isPreRelease : Bool
  latest : String
  shouldDraft : Bool
  targetCommitish : String
  prNumber : Option Nat
  prSpecificRelease : Option Release
  deriving Repr

/-- The release descriptor `generateReleaseInfo` returns. -/
structure ReleaseInfo where
  name : String
  tag : String
  body : String
  targetCommitish : String
  prerelease : Bool
  make_latest : String
  draft : Bool
  resolvedVersion : String
  majorVersion : Nat
  minorVersion : Nat
  patchVersion : Nat
  foundPrSpecificDraft : Bool
  deriving DecidableEq, Repr

/-- `isPreRelease && preReleaseIdentifier && prNumber !== null`. -/
def isPrereleaseRunOf (a : GenArgs) : Bool :=
  a.isPreRelease && a.config.prereleaseIdentifier ≠ "" && a.prNumber.isSome

/-- The marker comment encoding the change-request number. -/
def prMarker (n : Nat) : String := "<!-- pr-number: " ++ toString n ++ " -->"

/-- `tag.slice(tagPrefix.length)` when the tag starts with the (truthy)
prefix, as the reconciliation branch strips it. -/
def sliceTagPref (tagPref tag : String) : String :=
  if tagPref ≠ "" && tagPref.data.isPrefixOf tag.data then
    ⟨tag.data.drop tagPref.data.length⟩
  else tag

/-- The pre-release reconciliation branch (lines 469-561): returns the
`prSpecificDraftExists` flag and the possibly recalculated tag and name.
The version it reconstructs (lines 496-499) is only logged — the numbers
land in variables the standard calculation overwrites — so it is not part
of the state that escapes the branch.  A `gvi` result of `none`
(`getVersionInfo` returning `undefined`) makes the `template` call throw,
landing in the `catch` that resets the flag (line 558). -/
def prereleaseReconcile
    (gvi : Option Release → String → Option String → String → String → String →
      Option VersionInfo)
    (tmpl : String → VersionInfo → String) (a : GenArgs) :
    Bool × Option String × Option String :=
  match a.prSpecificRelease with
  | none => (false, a.tag, a.name)
  | some dr =>
    if isPrereleaseRunOf a then
      let currentVersionStr := sliceTagPref a.config.tagPref dr.tag_name
      match semverParse currentVersionStr with
      | some pv =>
        if pv.prerelease.length ≥ 2 &&
            pv.prerelease.head? = some (.str a.config.prereleaseIdentifier) then
          match pv.prerelease.get? 1 with
          | some (.num _) =>
            let versionKeyIncrement :=
              resolveVersionKeyIncrement a.mergedPullRequests a.config a.isPreRelease
            match gvi (some dr) a.config.versionTemplate (a.version <|> a.tag <|> a.name)
                versionKeyIncrement a.config.tagPref a.config.prereleaseIdentifier with
            | some innerVi =>
              let ct :=
                match a.tag with
                | none =>
                  let t := tmpl a.config.tagTemplate innerVi
                  if a.config.tagPref ≠ "" && !(a.config.tagPref.data.isPrefixOf t.data) then
                    some (a.config.tagPref ++ t)
                  else some t
                | some t => some (tmpl t innerVi)
              let cn :=
                match a.name with
                | none => some (tmpl a.config.nameTemplate innerVi)
                | some nm => some (tmpl nm innerVi)
              (true, ct, cn)
            | none => (false, a.tag, a.name)
          | _ => (true, a.tag, a.name)
        else (true, a.tag, a.name)
      | none => (true, a.tag, a.name)
    else (false, a.tag, a.name)

/-- `generateReleaseInfo` (lines 433-693): the reconciliation branch, the
standard version calculation (which, as explained above, always runs),
the initial `-identifier.0` suffix and marker for a first pre-release
run, tag/name templating, marker appending, body rendering, the
`refs/tags/` target cleanup, and the final descriptor.  `none` models the
`return null` when no version can be resolved. -/
def generateReleaseInfo
    (gvi : Option Release → String → Option String → String → String → String →
      Option VersionInfo)
    (tmpl : String → VersionInfo → String)
    (renderBody : VersionInfo → String)
    (a : GenArgs) : Option ReleaseInfo :=
  let isPrereleaseRun := isPrereleaseRunOf a
  let st := prereleaseReconcile gvi tmpl a
  let prSpecificDraftExists := st.1
  -- Standard Version Calculation: the outer `versionInfo` is still null.
  let versionKeyIncrement :=
    resolveVersionKeyIncrement a.mergedPullRequests a.config a.isPreRelease
  match gvi a.lastRelease a.config.versionTemplate (a.version <|> a.tag <|> a.name)
      versionKeyIncrement a.config.tagPref a.config.prereleaseIdentifier with
  | none => none
  | some vi0 =>
    match vi0.resolvedVersion with
    | none => none
    | some rv =>
      let firstPre := isPrereleaseRun && !prSpecificDraftExists
      let prn := a.prNumber.getD 0
      let resolvedVersion :=
        if firstPre then
          toString rv.major ++ "." ++ toString rv.minor ++ "." ++ toString rv.patch ++
            "-" ++ a.config.prereleaseIdentifier ++ ".0"
        else rv.version
      let vi :=
        if firstPre then
          { vi0 with resolvedVersion := some { rv with
              version := resolvedVersion,
              prerelease := "-" ++ a.config.prereleaseIdentifier ++ ".0",
              complete := resolvedVersion } }
        else vi0
      let body0 := if firstPre then "\n\n" ++ prMarker prn ++ "\n" else ""
      let calculatedTag :=
        match st.2.1 with
        | none =>
          let t := tmpl a.config.tagTemplate vi
          if a.config.tagPref ≠ "" && !(a.config.tagPref.data.isPrefixOf t.data) then
            a.config.tagPref ++ t
          else t
        | some t => tmpl t vi
      let calculatedName :=
        match st.2.2 with
        | none => tmpl a.config.nameTemplate vi
        | some nm => tmpl nm vi
      -- Append the PR marker if it wasn't added during initial version creation
      let body1 :=
        if isPrereleaseRun && !firstPre then body0 ++ ("\n\n" ++ prMarker prn ++ "\n")
        else body0
      let body2 := renderBody vi ++ body1
      -- Final cleanup of targetCommitish
      let finalTarget :=
        if "refs/tags/".data.isPrefixOf a.targetCommitish.data then "" else a.targetCommitish
      some {
        name := calculatedName,
        tag := calculatedTag,
        body := jsTrim body2,
        targetCommitish := finalTarget,
        prerelease := a.isPreRelease,
        make_latest := a.latest,
        draft := a.shouldDraft,
        resolvedVersion := resolvedVersion,
        majorVersion := rv.major,
        minorVersion := rv.minor,
        patchVersion := rv.patch,
        foundPrSpecificDraft := prSpecificDraftExists }

/-- Modelled from the spec: `getVersionInfo` lives in `versions.js`, which
is not among the analysed sources.  Per §4.2 and §4.5 it takes the
baseline release's version (prefix-stripped; a missing or unparsable
baseline starts from zero, on which the spec is silent), prefers an
explicit input version when one parses, applies the requested bump class
to produce the concrete numbers — a `pre`-prefixed class additionally
seeding the `-identifier.0` suffix — and returns the templatable
version-info object, or `undefined` (`none`) when no usable bump class is
given (§4.2's fatal condition). -/
def getVersionInfoSpec (release : Option Release) (_versionTemplate : String)
    (inputVersion : Option String) (versionKeyIncrement : String)
    (tagPref : String) (preReleaseIdentifier : String) : Option VersionInfo :=
  let parseTag : String → Option SemVerParsed := fun t => semverParse (sliceTagPref tagPref t)
  match inputVersion.bind parseTag with
  | some pv =>
    let vs := toString pv.major ++ "." ++ toString pv.minor ++ "." ++ toString pv.patch
    some ⟨some ⟨vs, pv.major, pv.minor, pv.patch, "", vs⟩, []⟩
  | none =>
    let base : SemVerParsed :=
      match release.bind (fun r => parseTag r.tag_name) with
      | some pv => pv
      | none => ⟨0, 0, 0, []⟩
    let bump : Option (Nat × Nat × Nat × Bool) :=
      if versionKeyIncrement = "patch" then some (base.major, base.minor, base.patch + 1, false)
      else if versionKeyIncrement = "minor" then some (base.major, base.minor + 1, 0, false)
      else if versionKeyIncrement = "major" then some (base.major + 1, 0, 0, false)
      else if versionKeyIncrement = "prepatch" then some (base.major, base.minor, base.patch + 1, true)
      else if versionKeyIncrement = "preminor" then some (base.major, base.minor + 1, 0, true)
      else if versionKeyIncrement = "premajor" then some (base.major + 1, 0, 0, true)
      else none
    match bump with
    | none => none
    | some (bM, bm, bp, seedPre) =>
      let pre :=
        if seedPre && preReleaseIdentifier ≠ "" then "-" ++ preReleaseIdentifier ++ ".0" else ""
      let vs := toString bM ++ "." ++ toString bm ++ "." ++ toString bp ++ pre
      some ⟨some ⟨vs, bM, bm, bp, pre, vs⟩, []⟩

/-- Modelled from the spec: the `template` renderer is a pure literal
`$TOKEN` substitution whose internals are out of scope; for the closed
evaluations below the identity on the template string suffices, since the
evaluated conclusions (resolved version, draft flag, body marker, target)
do not depend on the rendered tag and name. -/
def tmplId : String → VersionInfo → String := fun s _ => s

/-- A fixed rendered body for the closed evaluations. -/
def renderBodyConst : VersionInfo → String := fun _ => "## Changes\nentries"

/-- The matched change-request-scoped draft of the failing run: a draft
pre-release tagged `v1.2.0-beta.3` carrying the marker of change request
42. -/
def draftC : Release := ⟨"v1.2.0-beta.3", 100, "main", true, true, some "<!-- pr-number: 42 -->"⟩

/-- A matched draft whose tag `v1.2.0` has no pre-release components and
so fails the reconciliation shape check. -/
def draftBad : Release := ⟨"v1.2.0", 100, "main", true, true, some "<!-- pr-number: 42 -->"⟩

/-- The published baseline release `v1.2.0`. -/
def lastC : Release := ⟨"v1.2.0", 50, "main", false, false, none⟩

/-- A pre-release run for change request 42 that found the draft
`v1.2.0-beta.3`: label-free changes, so the version resolver falls back to
the default `minor` class, giving `preminor` and a standard-path version
of `1.3.0-beta.0` from the `v1.2.0` baseline. -/
def argsC2 : GenArgs :=
  { config := cfgW
    lastRelease := some lastC
    mergedPullRequests := []
    version := none
    tag := none
    name := none
    isPreRelease := true
    latest := "false"
    shouldDraft := true
    targetCommitish := "refs/heads/main"
    prNumber := some 42
    prSpecificRelease := some draftC }

/-- The same run with the malformed-shape draft `v1.2.0`. -/
def argsC3 : GenArgs :=
  { argsC2 with prSpecificRelease := some draftBad }

/-- The run of `argsC2` with a tag reference as target. -/
def argsTgtW : GenArgs := { argsC2 with targetCommitish := "refs/tags/v1.0.0" }

/-- A placeholder descriptor (only used as a `getD` default that is never
reached). -/
def emptyReleaseInfo : ReleaseInfo := ⟨"", "", "", "", false, "", false, "", 0, 0, 0, false⟩

/-- The descriptor the engine produces for `argsTgtW`. -/
def dTgtW : ReleaseInfo :=
  (generateReleaseInfo getVersionInfoSpec tmplId renderBodyConst argsTgtW).getD emptyReleaseInfo

/-- The descriptor the engine produces for `argsC2`. -/
def dC9W : ReleaseInfo :=
  (generateReleaseInfo getVersionInfoSpec tmplId renderBodyConst argsC2).getD emptyReleaseInfo

end ReleaseDrafter

namespace ReleaseDrafter

/-- Claim C8: an empty release list yields an absent baseline and an absent
change-request-scoped draft, an ordinary result rather than an error. -/
theorem findReleases_nil (targetCommitish : String) (filterByCommitish : Bool)
    (includePreReleases : Bool) (tagPref : String) (prNumber : Option Nat)
    (isPrereleaseRun : Bool) :
    findReleases targetCommitish filterByCommitish includePreReleases tagPref
      prNumber isPrereleaseRun [] = ⟨none, none⟩ := by
  cases filterByCommitish <;> cases isPrereleaseRun <;>
    simp [findReleases, commitishFilter, prefFilter, sortReleases, stableSort]

/-! ### Generic facts about the stable sort -/

theorem mem_sortInsert {le : α → α → Bool} {x y : α} {l : List α} :
    y ∈ sortInsert le x l ↔ y = x ∨ y ∈ l := by
  induction l with
  | nil => simp [sortInsert]
  | cons z t ih =>
    simp only [sortInsert]
    split
    · simp [List.mem_cons]
    · simp only [List.mem_cons, ih]
      tauto

theorem sortInsert_perm (le : α → α → Bool) (x : α) (l : List α) :
    (sortInsert le x l).Perm (x :: l) := by
  induction l with
  | nil => exact List.Perm.refl _
  | cons z t ih =>
    simp only [sortInsert]
    split
    · exact List.Perm.refl _
    · exact (ih.cons z).trans (List.Perm.swap x z t)

theorem stableSort_perm (le : α → α → Bool) (l : List α) :
    (stableSort le l).Perm l := by
  induction l with
  | nil => exact List.Perm.refl _
  | cons x t ih =>
    exact (sortInsert_perm le x (stableSort le t)).trans (ih.cons x)

theorem pairwise_sortInsert {le : α → α → Bool} {x : α} {l : List α}
    (hl : l.Pairwise (fun a b => le a b = true))
    (htot : ∀ b ∈ l, le x b = true ∨ le b x = true)
    (htrans : ∀ b ∈ l, ∀ c ∈ l, le x b = true → le b c = true → le x c = true) :
    (sortInsert le x l).Pairwise (fun a b => le a b = true) := by
  induction l with
  | nil => simp [sortInsert]
  | cons y t ih =>
    rw [List.pairwise_cons] at hl
    simp only [sortInsert]
    split
    · rename_i hxy
      refine List.pairwise_cons.mpr ⟨?_, List.pairwise_cons.mpr hl⟩
      intro b hb
      rcases List.mem_cons.mp hb with rfl | hbt
      · exact hxy
      · exact htrans y (List.mem_cons_self _ _) b (List.mem_cons_of_mem _ hbt) hxy
          (hl.1 b hbt)
    · rename_i hxy
      refine List.pairwise_cons.mpr ⟨?_, ?_⟩
      · intro b hb
        rcases mem_sortInsert.mp hb with rfl | hbt
        · rcases htot y (List.mem_cons_self _ _) with h | h
          · exact absurd h hxy
          · exact h
        · exact hl.1 b hbt
      · exact ih hl.2 (fun b hb => htot b (List.mem_cons_of_mem _ hb))
          (fun b hb c hc => htrans b (List.mem_cons_of_mem _ hb) c (List.mem_cons_of_mem _ hc))

theorem pairwise_stableSort {le : α → α → Bool} {l : List α}
    (htot : ∀ a ∈ l, ∀ b ∈ l, le a b = true ∨ le b a = true)
    (htrans : ∀ a ∈ l, ∀ b ∈ l, ∀ c ∈ l, le a b = true → le b c = true → le a c = true) :
    (stableSort le l).Pairwise (fun a b => le a b = true) := by
  induction l with
  | nil => simp [stableSort]
  | cons x t ih =>
    have hsub : ∀ b ∈ stableSort le t, b ∈ t :=
      fun b hb => (stableSort_perm le t).subset hb
    refine pairwise_sortInsert ?_ ?_ ?_
    · exact ih (fun a ha b hb => htot a (List.mem_cons_of_mem _ ha) b (List.mem_cons_of_mem _ hb))
        (fun a ha b hb c hc => htrans a (List.mem_cons_of_mem _ ha) b (List.mem_cons_of_mem _ hb)
          c (List.mem_cons_of_mem _ hc))
    · intro b hb
      exact htot x (List.mem_cons_self _ _) b (List.mem_cons_of_mem _ (hsub b hb))
    · intro b hb c hc
      exact htrans x (List.mem_cons_self _ _) b (List.mem_cons_of_mem _ (hsub b hb))
        c (List.mem_cons_of_mem _ (hsub c hc))

theorem eq_of_perm_of_pairwise {R : α → α → Prop} :
    ∀ {l₁ l₂ : List α}, l₁.Perm l₂ → l₁.Pairwise R → l₂.Pairwise R →
      (∀ a ∈ l₁, ∀ b ∈ l₁, R a b → R b a → a = b) → l₁ = l₂ := by
  intro l₁
  induction l₁ with
  | nil =>
    intro l₂ hp _ _ _
    exact hp.nil_eq
  | cons a t₁ ih =>
    intro l₂ hp h₁ h₂ hanti
    cases l₂ with
    | nil => simpa using hp.symm.nil_eq
    | cons b t₂ =>
      rw [List.pairwise_cons] at h₁ h₂
      have hab : a = b := by
        by_contra hne
        have ha2 : a ∈ b :: t₂ := hp.subset (List.mem_cons_self _ _)
        have hb1 : b ∈ a :: t₁ := hp.symm.subset (List.mem_cons_self _ _)
        have hat2 : a ∈ t₂ := by
          rcases List.mem_cons.mp ha2 with h | h
          · exact absurd h hne
          · exact h
        have hbt1 : b ∈ t₁ := by
          rcases List.mem_cons.mp hb1 with h | h
          · exact absurd h.symm hne
          · exact h
        exact hne (hanti a (List.mem_cons_self _ _) b (List.mem_cons_of_mem _ hbt1)
          (h₁.1 b hbt1) (h₂.1 a hat2))
      subst hab
      have hp' := hp.cons_inv
      have ht : t₁ = t₂ := ih hp' h₁.2 h₂.2
        (fun x hx y hy => hanti x (List.mem_cons_of_mem _ hx) y (List.mem_cons_of_mem _ hy))
      rw [ht]

theorem stableSort_congr_of_perm {le : α → α → Bool} {l₁ l₂ : List α} (hp : l₁.Perm l₂)
    (htot : ∀ a ∈ l₁, ∀ b ∈ l₁, le a b = true ∨ le b a = true)
    (htrans : ∀ a ∈ l₁, ∀ b ∈ l₁, ∀ c ∈ l₁, le a b = true → le b c = true → le a c = true)
    (hanti : ∀ a ∈ l₁, ∀ b ∈ l₁, le a b = true → le b a = true → a = b) :
    stableSort le l₁ = stableSort le l₂ := by
  have hmem : ∀ a, a ∈ l₂ ↔ a ∈ l₁ := fun a => hp.symm.mem_iff
  refine eq_of_perm_of_pairwise
    ((stableSort_perm le l₁).trans (hp.trans (stableSort_perm le l₂).symm))
    (pairwise_stableSort htot htrans)
    (pairwise_stableSort (fun a ha b hb => htot a ((hmem a).mp ha) b ((hmem b).mp hb))
      (fun a ha b hb c hc => htrans a ((hmem a).mp ha) b ((hmem b).mp hb) c ((hmem c).mp hc)))
    ?_
  intro a ha b hb
  exact hanti a ((stableSort_perm le l₁).subset ha) b ((stableSort_perm le l₁).subset hb)

/-! ### The numeric-key view of `compareVersions` -/

theorem segNum_digits {s : Option CvSeg} {m : Nat} (h : segNum s = some m) :
    ∃ ds, s.getD (CvSeg.digits ['0']) = CvSeg.digits ds ∧ digitsToNat ds = m := by
  cases s with
  | none =>
    refine ⟨['0'], rfl, ?_⟩
    have hm : m = 0 := by simpa [segNum] using h.symm
    rw [hm]; decide
  | some seg =>
    cases seg with
    | wild => simp [segNum] at h
    | digits ds => exact ⟨ds, rfl, by simpa [segNum] using h⟩

theorem cvSegListCompare_three (a1 a2 a3 b1 b2 b3 : CvSeg) :
    cvSegListCompare [a1, a2, a3] [b1, b2, b3] =
      if cvSegCompare a1 b1 ≠ 0 then cvSegCompare a1 b1
      else if cvSegCompare a2 b2 ≠ 0 then cvSegCompare a2 b2
      else if cvSegCompare a3 b3 ≠ 0 then cvSegCompare a3 b3
      else 0 := rfl

theorem parsedKey_compareCore {p q : CvParsed} {k1 k2 : Nat × Nat × Nat}
    (h1 : parsedKey p = some k1) (h2 : parsedKey q = some k2) :
    cvCompareCore p q = keyCompare k1 k2 ∧ p.pre = none ∧ q.pre = none := by
  unfold parsedKey at h1 h2
  cases hpre1 : p.pre with
  | some e => rw [hpre1] at h1; simp at h1
  | none =>
  cases hpre2 : q.pre with
  | some e => rw [hpre2] at h2; simp at h2
  | none =>
  rw [hpre1] at h1; rw [hpre2] at h2
  refine ⟨?_, rfl, rfl⟩
  have hm1 : ∃ m, segNum p.minor = some m := by
    cases hm : segNum p.minor
    · rw [hm] at h1; simp at h1
    · exact ⟨_, rfl⟩
  obtain ⟨m1, hm1⟩ := hm1
  have hp1 : ∃ m, segNum p.patch = some m := by
    cases hq : segNum p.patch
    · rw [hm1, hq] at h1; simp at h1
    · exact ⟨_, rfl⟩
  obtain ⟨p1, hp1⟩ := hp1
  have hm2 : ∃ m, segNum q.minor = some m := by
    cases hm : segNum q.minor
    · rw [hm] at h2; simp at h2
    · exact ⟨_, rfl⟩
  obtain ⟨m2, hm2⟩ := hm2
  have hp2 : ∃ m, segNum q.patch = some m := by
    cases hq : segNum q.patch
    · rw [hm2, hq] at h2; simp at h2
    · exact ⟨_, rfl⟩
  obtain ⟨p2, hp2⟩ := hp2
  rw [hm1, hp1] at h1
  rw [hm2, hp2] at h2
  simp only [Option.some.injEq] at h1 h2
  subst h1; subst h2
  obtain ⟨dsm1, em1, vm1⟩ := segNum_digits hm1
  obtain ⟨dsp1, ep1, vp1⟩ := segNum_digits hp1
  obtain ⟨dsm2, em2, vm2⟩ := segNum_digits hm2
  obtain ⟨dsp2, ep2, vp2⟩ := segNum_digits hp2
  rw [cvCompareCore, cvCoreSegs, cvCoreSegs, em1, ep1, em2, ep2, cvSegListCompare_three]
  simp only [cvSegCompare, vm1, vp1, vm2, vp2, keyCompare, natCompare]
  split_ifs <;> omega

theorem compareVersions_key {v1 v2 : String} {k1 k2 : Nat × Nat × Nat}
    (h1 : cvNumericKey v1 = some k1) (h2 : cvNumericKey v2 = some k2) :
    compareVersions v1 v2 = some (keyCompare k1 k2) := by
  unfold cvNumericKey at h1 h2
  cases hv1 : cvValidate v1 with
  | none => rw [hv1] at h1; exact absurd h1 (by simp)
  | some p =>
    cases hv2 : cvValidate v2 with
    | none => rw [hv2] at h2; exact absurd h2 (by simp)
    | some q =>
      rw [hv1] at h1; rw [hv2] at h2
      simp only [Option.bind] at h1 h2
      obtain ⟨hcore, hp, hq⟩ := parsedKey_compareCore h1 h2
      unfold compareVersions
      rw [hv1, hv2]
      dsimp only
      rw [hcore, hp, hq]
      dsimp only
      split
      · rfl
      · rename_i hz
        simp only [ne_eq, not_not] at hz
        rw [hz]

theorem keyCompare_le_iff (k1 k2 : Nat × Nat × Nat) :
    keyCompare k1 k2 ≤ 0 ↔
      k1.1 < k2.1 ∨ (k1.1 = k2.1 ∧
        (k1.2.1 < k2.2.1 ∨ (k1.2.1 = k2.2.1 ∧ k1.2.2 ≤ k2.2.2))) := by
  unfold keyCompare
  split_ifs <;> omega

theorem keyCompare_total (k1 k2 : Nat × Nat × Nat) :
    keyCompare k1 k2 ≤ 0 ∨ keyCompare k2 k1 ≤ 0 := by
  rw [keyCompare_le_iff, keyCompare_le_iff]
  omega

theorem keyCompare_trans {k1 k2 k3 : Nat × Nat × Nat}
    (h1 : keyCompare k1 k2 ≤ 0) (h2 : keyCompare k2 k3 ≤ 0) :
    keyCompare k1 k3 ≤ 0 := by
  rw [keyCompare_le_iff] at h1 h2 ⊢
  omega

theorem keyCompare_antisymm {k1 k2 : Nat × Nat × Nat}
    (h1 : keyCompare k1 k2 ≤ 0) (h2 : keyCompare k2 k1 ≤ 0) : k1 = k2 := by
  rw [keyCompare_le_iff] at h1 h2
  have h3 : k1.1 = k2.1 ∧ k1.2.1 = k2.2.1 ∧ k1.2.2 = k2.2.2 := by omega
  rw [Prod.ext_iff, Prod.ext_iff]
  exact ⟨h3.1, h3.2.1, h3.2.2⟩

/-- Claim C5 counterexample: `findReleases` is not invariant under
reordering of the input release list.  The tags `1.0.0` and `v1.0.0`
compare equal under `compareVersions`, the sort is stable, and the
baseline is the last element of the sorted list — so the two orderings of
the same two published releases select different baselines. -/
theorem findReleases_order_dependent :
    List.Perm [cexA, cexB] [cexB, cexA] ∧
    findReleases "main" false false "" none false [cexA, cexB] ≠
      findReleases "main" false false "" none false [cexB, cexA] :=
  ⟨List.Perm.swap cexB cexA [], by decide⟩

/-- Claim C5 (amended): when every release's prefix-stripped tag carries a
plain numeric `major.minor.patch` comparison key (no wildcard or
pre-release components) and no two distinct releases have version-equal
tags, the comparator is a linear order on the list, and the
`findReleases` selection — baseline release and change-request-scoped
draft — is invariant under reordering of the input list. -/
theorem findReleases_perm_invariant (targetCommitish : String)
    (filterByCommitish includePreReleases : Bool) (tagPref : String)
    (prNumber : Option Nat) (isPrereleaseRun : Bool) (l₁ l₂ : List Release)
    (hperm : l₁.Perm l₂)
    (hkey : ∀ r ∈ l₁, (cvNumericKey (stripTagPref tagPref r.tag_name)).isSome = true)
    (hdist : ∀ r ∈ l₁, ∀ s ∈ l₁,
      cvNumericKey (stripTagPref tagPref r.tag_name) =
        cvNumericKey (stripTagPref tagPref s.tag_name) → r = s) :
    findReleases targetCommitish filterByCommitish includePreReleases tagPref
      prNumber isPrereleaseRun l₁ =
    findReleases targetCommitish filterByCommitish includePreReleases tagPref
      prNumber isPrereleaseRun l₂ := by
  have hpool : (prefFilter tagPref (commitishFilter targetCommitish filterByCommitish l₁)).Perm
      (prefFilter tagPref (commitishFilter targetCommitish filterByCommitish l₂)) := by
    unfold prefFilter commitishFilter
    split <;> split <;> first
      | exact hperm
      | exact hperm.filter _
      | exact (hperm.filter _).filter _
  have hsub : ∀ r ∈ prefFilter tagPref (commitishFilter targetCommitish filterByCommitish l₁),
      r ∈ l₁ := by
    intro r hr
    unfold prefFilter commitishFilter at hr
    split at hr <;> split at hr <;>
      first
        | exact hr
        | exact List.mem_of_mem_filter hr
        | exact List.mem_of_mem_filter (List.mem_of_mem_filter hr)
  have hkeyOf : ∀ r ∈ l₁, ∃ k, cvNumericKey (stripTagPref tagPref r.tag_name) = some k :=
    fun r hr => Option.isSome_iff_exists.mp (hkey r hr)
  have hcmp : ∀ r ∈ l₁, ∀ s ∈ l₁, ∀ kr ks,
      cvNumericKey (stripTagPref tagPref r.tag_name) = some kr →
      cvNumericKey (stripTagPref tagPref s.tag_name) = some ks →
      (releaseLe tagPref r s = true ↔ keyCompare kr ks ≤ 0) := by
    intro r _ s _ kr ks hkr hks
    unfold releaseLe releaseCompare
    rw [compareVersions_key hkr hks]
    simp
  have hsort : sortReleases (prefFilter tagPref (commitishFilter targetCommitish filterByCommitish l₁)) tagPref =
      sortReleases (prefFilter tagPref (commitishFilter targetCommitish filterByCommitish l₂)) tagPref := by
    unfold sortReleases
    refine stableSort_congr_of_perm hpool ?_ ?_ ?_
    · intro a ha b hb
      obtain ⟨ka, hka⟩ := hkeyOf a (hsub a ha)
      obtain ⟨kb, hkb⟩ := hkeyOf b (hsub b hb)
      rcases keyCompare_total ka kb with h | h
      · exact Or.inl ((hcmp a (hsub a ha) b (hsub b hb) ka kb hka hkb).mpr h)
      · exact Or.inr ((hcmp b (hsub b hb) a (hsub a ha) kb ka hkb hka).mpr h)
    · intro a ha b hb c hc h1 h2
      obtain ⟨ka, hka⟩ := hkeyOf a (hsub a ha)
      obtain ⟨kb, hkb⟩ := hkeyOf b (hsub b hb)
      obtain ⟨kc, hkc⟩ := hkeyOf c (hsub c hc)
      have t1 := (hcmp a (hsub a ha) b (hsub b hb) ka kb hka hkb).mp h1
      have t2 := (hcmp b (hsub b hb) c (hsub c hc) kb kc hkb hkc).mp h2
      exact (hcmp a (hsub a ha) c (hsub c hc) ka kc hka hkc).mpr (keyCompare_trans t1 t2)
    · intro a ha b hb h1 h2
      obtain ⟨ka, hka⟩ := hkeyOf a (hsub a ha)
      obtain ⟨kb, hkb⟩ := hkeyOf b (hsub b hb)
      have t1 := (hcmp a (hsub a ha) b (hsub b hb) ka kb hka hkb).mp h1
      have t2 := (hcmp b (hsub b hb) a (hsub a ha) kb ka hkb hka).mp h2
      have hk : ka = kb := keyCompare_antisymm t1 t2
      exact hdist a (hsub a ha) b (hsub b hb) (by rw [hka, hkb, hk])
  unfold findReleases
  rw [hsort]

/-- Witness for the amended claim C5 at two concrete orderings of the same
list of `v`-prefixed numeric releases. -/
theorem findReleases_perm_invariant_witness :
    findReleases "main" true false "v" (some 7) true [wrA, wrB] =
      findReleases "main" true false "v" (some 7) true [wrB, wrA] :=
  findReleases_perm_invariant "main" true false "v" (some 7) true [wrA, wrB] [wrB, wrA]
    (by decide) (by decide) (by decide)

/-! ### The bump-class resolution -/

theorem le_foldr_max {l : List Nat} {a : Nat} (h : a ∈ l) : a ≤ l.foldr max 0 := by
  induction l with
  | nil => cases h
  | cons b t ih =>
    rcases List.mem_cons.mp h with rfl | h'
    · exact le_max_left _ _
    · exact le_trans (ih h') (le_max_right _ _)

theorem foldr_max_le {l : List Nat} {n : Nat} (h : ∀ x ∈ l, x ≤ n) : l.foldr max 0 ≤ n := by
  induction l with
  | nil => exact Nat.zero_le n
  | cons b t ih =>
    exact max_le (h b (List.mem_cons_self _ _))
      (ih (fun x hx => h x (List.mem_cons_of_mem _ hx)))

theorem rvki_eq_highest (prs : List PullRequest) (config : Config) (b : Bool) :
    resolveVersionKeyIncrement prs config b =
      (if b && config.prereleaseIdentifier ≠ "" then "pre" else "") ++
        highestBumpClass prs config := by
  simp only [resolveVersionKeyIncrement, highestBumpClass]
  set F := (prs.filter (filterExcludedPullRequests config.excludeLabels)).filter
      (filterIncludedPullRequests config.includeLabels) with hF
  set K := F.flatMap (fun pr => pr.labels.filterMap (labelToKey config.versionResolver)) with hK
  have hmem : ∀ k, k ∈ K ↔
      ∃ pr ∈ F, ∃ l ∈ pr.labels, labelToKey config.versionResolver l = some k := by
    intro k
    rw [hK, List.mem_flatMap]
    constructor
    · rintro ⟨pr, hpr, hk⟩
      obtain ⟨l, hl, he⟩ := List.mem_filterMap.mp hk
      exact ⟨pr, hpr, l, hl, he⟩
    · rintro ⟨pr, hpr, l, hl, he⟩
      exact ⟨pr, hpr, List.mem_filterMap.mpr ⟨l, hl, he⟩⟩
  have hrange : ∀ k ∈ K, k = "major" ∨ k = "minor" ∨ k = "patch" := by
    intro k hk
    obtain ⟨pr, _, l, _, he⟩ := (hmem k).mp hk
    unfold labelToKey at he
    split_ifs at he <;> simp_all
  by_cases hM : "major" ∈ K
  · have h3 : (K.map priorityOf).foldr max 0 = 3 := by
      apply le_antisymm
      · apply foldr_max_le
        intro x hx
        obtain ⟨k, hk, rfl⟩ := List.mem_map.mp hx
        rcases hrange k hk with rfl | rfl | rfl <;> decide
      · have : priorityOf "major" ∈ K.map priorityOf := List.mem_map.mpr ⟨_, hM, rfl⟩
        exact le_foldr_max this
    rw [if_pos ((hmem "major").mp hM)]
    simp only [h3]
    have hfind : List.find? (fun k => decide (priorityOf k = 3)) ["patch", "minor", "major"] =
        some "major" := by decide
    rw [hfind]
    cases b <;> simp <;> split_ifs <;> rfl
  · by_cases hm : "minor" ∈ K
    · have h2 : (K.map priorityOf).foldr max 0 = 2 := by
        apply le_antisymm
        · apply foldr_max_le
          intro x hx
          obtain ⟨k, hk, rfl⟩ := List.mem_map.mp hx
          rcases hrange k hk with rfl | rfl | rfl
          · exact absurd hk hM
          · decide
          · decide
        · have : priorityOf "minor" ∈ K.map priorityOf := List.mem_map.mpr ⟨_, hm, rfl⟩
          exact le_foldr_max this
      rw [if_neg (fun hc => hM ((hmem "major").mpr hc)), if_pos ((hmem "minor").mp hm)]
      simp only [h2]
      have hfind : List.find? (fun k => decide (priorityOf k = 2)) ["patch", "minor", "major"] =
          some "minor" := by decide
      rw [hfind]
      cases b <;> simp <;> split_ifs <;> rfl
    · by_cases hp : "patch" ∈ K
      · have h1 : (K.map priorityOf).foldr max 0 = 1 := by
          apply le_antisymm
          · apply foldr_max_le
            intro x hx
            obtain ⟨k, hk, rfl⟩ := List.mem_map.mp hx
            rcases hrange k hk with rfl | rfl | rfl
            · exact absurd hk hM
            · exact absurd hk hm
            · decide
          · have : priorityOf "patch" ∈ K.map priorityOf := List.mem_map.mpr ⟨_, hp, rfl⟩
            exact le_foldr_max this
        rw [if_neg (fun hc => hM ((hmem "major").mpr hc)),
          if_neg (fun hc => hm ((hmem "minor").mpr hc)), if_pos ((hmem "patch").mp hp)]
        simp only [h1]
        have hfind : List.find? (fun k => decide (priorityOf k = 1)) ["patch", "minor", "major"] =
            some "patch" := by decide
        rw [hfind]
        cases b <;> simp <;> split_ifs <;> rfl
      · have hnil : K = [] := by
          rw [List.eq_nil_iff_forall_not_mem]
          intro k hk
          rcases hrange k hk with rfl | rfl | rfl
          · exact hM hk
          · exact hm hk
          · exact hp hk
        rw [if_neg (fun hc => hM ((hmem "major").mpr hc)),
          if_neg (fun hc => hm ((hmem "minor").mpr hc)),
          if_neg (fun hc => hp ((hmem "patch").mpr hc))]
        simp only [hnil, List.map_nil, List.foldr_nil]
        have hfind : List.find? (fun k => decide (priorityOf k = 0)) ["patch", "minor", "major"] =
            none := by decide
        rw [hfind]
        cases b <;> simp <;> split_ifs <;> rfl

theorem highestBumpClass_perm {prs prs' : List PullRequest} (config : Config)
    (h : prs.Perm prs') :
    highestBumpClass prs config = highestBumpClass prs' config := by
  unfold highestBumpClass
  have hfp : ((prs.filter (filterExcludedPullRequests config.excludeLabels)).filter
        (filterIncludedPullRequests config.includeLabels)).Perm
      ((prs'.filter (filterExcludedPullRequests config.excludeLabels)).filter
        (filterIncludedPullRequests config.includeLabels)) :=
    (h.filter _).filter _
  have hiff : ∀ k : String,
      (∃ pr ∈ (prs.filter (filterExcludedPullRequests config.excludeLabels)).filter
          (filterIncludedPullRequests config.includeLabels),
        ∃ l ∈ pr.labels, labelToKey config.versionResolver l = some k) ↔
      (∃ pr ∈ (prs'.filter (filterExcludedPullRequests config.excludeLabels)).filter
          (filterIncludedPullRequests config.includeLabels),
        ∃ l ∈ pr.labels, labelToKey config.versionResolver l = some k) := by
    intro k
    constructor
    · rintro ⟨pr, hpr, hrest⟩
      exact ⟨pr, hfp.subset hpr, hrest⟩
    · rintro ⟨pr, hpr, hrest⟩
      exact ⟨pr, hfp.symm.subset hpr, hrest⟩
  simp only [hiff]

/-- Claim C4: `resolveVersionKeyIncrement` returns the highest-priority
bump class (major > minor > patch) among the trigger labels of the
filtered changes — prefixed with `pre` on a pre-release run with a
configured identifier — falling back to the configured default when no
trigger label matches; the result is invariant under reordering of the
change list. -/
theorem resolveVersionKeyIncrement_highest (prs : List PullRequest) (config : Config)
    (isPreRelease : Bool) :
    resolveVersionKeyIncrement prs config isPreRelease =
      (if isPreRelease && config.prereleaseIdentifier ≠ "" then "pre" else "") ++
        highestBumpClass prs config ∧
    ∀ prs' : List PullRequest, prs.Perm prs' →
      resolveVersionKeyIncrement prs config isPreRelease =
        resolveVersionKeyIncrement prs' config isPreRelease := by
  refine ⟨rvki_eq_highest prs config isPreRelease, ?_⟩
  intro prs' hp
  rw [rvki_eq_highest, rvki_eq_highest, highestBumpClass_perm config hp]

/-- Witness for claim C4: one change labelled only `bug` (patch class) and
another labelled only `breaking` (major class) resolve to a major bump in
either order, and an unlabelled list falls back to the default. -/
theorem resolveVersionKeyIncrement_highest_witness :
    resolveVersionKeyIncrement [prW1, prW2] cfgW false = "major" ∧
    resolveVersionKeyIncrement [prW1, prW2] cfgW false =
      resolveVersionKeyIncrement [prW2, prW1] cfgW false ∧
    resolveVersionKeyIncrement [⟨3, "t", []⟩] cfgW false = "minor" :=
  ⟨by decide,
    (resolveVersionKeyIncrement_highest [prW1, prW2] cfgW false).2 [prW2, prW1]
      (List.Perm.swap prW2 prW1 []),
    by decide⟩

/-! ### `escapeTitle`: code spans and the escape set -/

theorem escapeTitleChars_eq_claim (esc : List Char) (h : esc.contains btick = false) :
    ∀ fuel l, escapeTitleChars esc fuel l = escapeTitleClaimChars esc fuel l := by
  intro fuel
  induction fuel with
  | zero => intro l; cases l <;> rfl
  | succ n ih =>
    intro l
    cases l with
    | nil => rfl
    | cons c rest =>
      simp only [escapeTitleChars, escapeTitleClaimChars]
      by_cases hc : c = btick
      · subst hc
        rw [h]
        simp only [Bool.false_eq_true, if_false, if_pos rfl]
        cases hf : findCodeSpanClose rest with
        | some i => simp [ih]
        | none => simp [ih]
      · by_cases hcc : esc.contains c = true
        · simp [hcc, hc, ih]
        · simp [hcc, hc, ih]

/-- Claim C7 (amended): provided the configured escape set does not itself
contain a backtick, `escapeTitle` realises the claimed rule — each
character of the escape set is backslash-escaped except that `@` and `#`
are instead followed by the zero-width comment `<!---->`, and any inline
backtick-delimited code span passes through verbatim. -/
theorem escapeTitle_spec (escapes title : String)
    (h : escapes.data.contains btick = false) :
    escapeTitle escapes title = escapeTitleClaim escapes title := by
  unfold escapeTitle escapeTitleClaim
  rw [escapeTitleChars_eq_claim escapes.data h]

/-- Claim C7 counterexample: with a backtick inside the escape set the
source escapes the backticks and the span contents (as its comment says),
so a code span is not passed through verbatim and the claimed rule
mispredicts the output. -/
theorem escapeTitle_backtick_in_escapes :
    escapeTitle "#\x60" "\x60a#b\x60" = "\\\x60a#<!---->b\\\x60" ∧
    escapeTitle "#\x60" "\x60a#b\x60" ≠ escapeTitleClaim "#\x60" "\x60a#b\x60" :=
  ⟨by decide, by decide⟩

/-- Witness for the amended claim C7 at the spec's examples. -/
theorem escapeTitle_spec_witness :
    "#@".data.contains btick = false ∧
    escapeTitle "#@" "Fix #123 @bug" = escapeTitleClaim "#@" "Fix #123 @bug" ∧
    escapeTitle "#@" "Fix #123 @bug" = "Fix #<!---->123 @<!---->bug" ∧
    escapeTitle "#@" "Fix \x60a#b\x60 now" = "Fix \x60a#b\x60 now" :=
  ⟨by decide, escapeTitle_spec "#@" "Fix #123 @bug" (by decide), by decide, by decide⟩

/-! ### `categorizePullRequests`: duplication and disjointness -/

/-- Claim C6 counterexample: the claim quantifies over every input list
and configuration, but a change carrying an excluded label is dropped by
the shared filters and appears in no category at all, even though its
labels intersect the trigger sets of two categories. -/
theorem categorizePullRequests_excluded_dual :
    ("bug" ∈ prExcl.labels ∧ "bug" ∈ (cfgW.categories.getD 0 ⟨"", [], 0⟩).labels) ∧
    ("feature" ∈ prExcl.labels ∧ "feature" ∈ (cfgW.categories.getD 1 ⟨"", [], 0⟩).labels) ∧
    (categorizePullRequests [prExcl] cfgW).1 = [] ∧
    (categorizePullRequests [prExcl] cfgW).2.all
      (fun cat => !(cat.pullRequests.contains prExcl)) = true := by
  decide

/-- Claim C6 (amended): after the shared exclude/include filtering, a
change whose labels intersect a category's trigger set is appended to
that category's list — so a change matching several categories appears
verbatim in each — and every category's list is disjoint from the
uncategorized bucket. -/
theorem categorizePullRequests_membership (pullRequests : List PullRequest) (config : Config) :
    (∀ pr ∈ pullRequests,
      filterExcludedPullRequests config.excludeLabels pr = true →
      filterIncludedPullRequests config.includeLabels pr = true →
      ∀ i, ∀ hi : i < config.categories.length,
        (∃ l ∈ pr.labels, l ∈ (config.categories.get ⟨i, hi⟩).labels) →
        ∃ hi2 : i < (categorizePullRequests pullRequests config).2.length,
          pr ∈ ((categorizePullRequests pullRequests config).2.get ⟨i, hi2⟩).pullRequests) ∧
    (∀ pr ∈ (categorizePullRequests pullRequests config).1,
      ∀ cat ∈ (categorizePullRequests pullRequests config).2, pr ∉ cat.pullRequests) := by
  constructor
  · intro pr hpr hex hinc i hi hl
    obtain ⟨l, hlmem, hlcat⟩ := hl
    have hiAI : pr ∈ (pullRequests.filter (filterExcludedPullRequests config.excludeLabels)).filter
        (filterIncludedPullRequests config.includeLabels) :=
      List.mem_filter.mpr ⟨List.mem_filter.mpr ⟨hpr, hex⟩, hinc⟩
    have hnotun : isUncategorized config.categories pr = false := by
      unfold isUncategorized
      have h1 : pr.labels.isEmpty = false := List.isEmpty_eq_false.mpr (List.ne_nil_of_mem hlmem)
      have hall : l ∈ allCategoryLabels config.categories := by
        unfold allCategoryLabels
        exact List.mem_flatMap.mpr ⟨config.categories.get ⟨i, hi⟩, List.get_mem _ _ _, hlcat⟩
      have h2 : pr.labels.any (fun x => (allCategoryLabels config.categories).contains x) = true :=
        List.any_eq_true.mpr ⟨l, hlmem, by
          simp only [List.contains, List.elem_iff]; exact hall⟩
      rw [h1, h2]
      rfl
    have hlen : (categorizePullRequests pullRequests config).2.length =
        config.categories.length := by
      simp [categorizePullRequests, List.length_map, List.enum_length]
    refine ⟨by rw [hlen]; exact hi, ?_⟩
    have hget : ((categorizePullRequests pullRequests config).2.get ⟨i, by rw [hlen]; exact hi⟩) =
        { title := (config.categories.get ⟨i, hi⟩).title,
          labels := (config.categories.get ⟨i, hi⟩).labels,
          collapseAfter := (config.categories.get ⟨i, hi⟩).collapseAfter,
          pullRequests :=
            (if config.categories.findIdx? (fun c => c.labels.isEmpty) = some i then
              ((pullRequests.filter (filterExcludedPullRequests config.excludeLabels)).filter
                  (filterIncludedPullRequests config.includeLabels)).filter
                (isUncategorized config.categories)
            else [])
            ++ (((pullRequests.filter (filterExcludedPullRequests config.excludeLabels)).filter
                  (filterIncludedPullRequests config.includeLabels)).filter
                (fun pr => !(isUncategorized config.categories pr))).filter
              (fun pr => pr.labels.any (fun x =>
                (config.categories.get ⟨i, hi⟩).labels.contains x)) } := by
      simp [categorizePullRequests, List.get_eq_getElem, List.getElem_map, List.getElem_enum]
    rw [hget]
    apply List.mem_append_right
    refine List.mem_filter.mpr ⟨List.mem_filter.mpr ⟨hiAI, by rw [hnotun]; rfl⟩, ?_⟩
    exact List.any_eq_true.mpr ⟨l, hlmem, by
      simp only [List.contains, List.elem_iff]; exact hlcat⟩
  · intro pr hpr cat hcat hmem
    have hidx : config.categories.findIdx? (fun c => c.labels.isEmpty) = none ∧
        isUncategorized config.categories pr = true := by
      simp only [categorizePullRequests] at hpr
      split at hpr
      · exact ⟨by assumption, (List.mem_filter.mp hpr).2⟩
      · simp at hpr
    simp only [categorizePullRequests, List.mem_map] at hcat
    obtain ⟨ic, _, rfl⟩ := hcat
    simp only [hidx.1] at hmem
    rw [if_neg (by simp)] at hmem
    rw [List.nil_append] at hmem
    have := (List.mem_filter.mp (List.mem_of_mem_filter hmem)).2
    rw [hidx.2] at this
    exact absurd this (by decide)

/-- Witness for claim C6: the change labelled `bug` and `feature` lands in
both categories of `cfgW`. -/
theorem categorizePullRequests_membership_witness :
    (∃ h2 : 0 < (categorizePullRequests [prDual] cfgW).2.length,
      prDual ∈ ((categorizePullRequests [prDual] cfgW).2.get ⟨0, h2⟩).pullRequests) ∧
    (∃ h2 : 1 < (categorizePullRequests [prDual] cfgW).2.length,
      prDual ∈ ((categorizePullRequests [prDual] cfgW).2.get ⟨1, h2⟩).pullRequests) :=
  ⟨(categorizePullRequests_membership [prDual] cfgW).1 prDual (by decide) (by decide)
      (by decide) 0 (by decide) ⟨"bug", by decide, by decide⟩,
    (categorizePullRequests_membership [prDual] cfgW).1 prDual (by decide) (by decide)
      (by decide) 1 (by decide) ⟨"feature", by decide, by decide⟩⟩

/-! ### The dual version-computation paths of `generateReleaseInfo` -/

/-- Claim C1 (evaluation at the failing input): on the run `argsC2` a
change-request-scoped draft tagged `v1.2.0-beta.3` was found and passed
every shape check (the descriptor's found-draft flag is `true`, set only
inside the reconciliation branch), yet the descriptor carries the
standard calculation's version `1.3.0-beta.0` — computed from the
baseline `v1.2.0` with the `preminor` bump — and its numbers `1.3.0`,
not the draft's `1.2.x`: the inner `const versionInfo` shadows the outer
variable, so the `versionInfo === null` guard of the standard path always
passes and both paths execute. -/
theorem generateReleaseInfo_both_paths :
    (generateReleaseInfo getVersionInfoSpec tmplId renderBodyConst argsC2).map
      (fun d => (d.foundPrSpecificDraft, d.resolvedVersion, d.majorVersion, d.minorVersion,
        d.patchVersion)) = some (true, "1.3.0-beta.0", 1, 3, 0) ∧
    getVersionInfoSpec argsC2.lastRelease argsC2.config.versionTemplate none
      (resolveVersionKeyIncrement argsC2.mergedPullRequests argsC2.config true) "v" "beta" =
      some ⟨some ⟨"1.3.0-beta.0", 1, 3, 0, "-beta.0", "1.3.0-beta.0"⟩, []⟩ :=
  ⟨by decide, by decide⟩

/-- Claim C2 (evaluation at the failing input): the draft `v1.2.0-beta.3`
for change request 42 parses with pre-release components
`[beta, 3]`, so the reconciliation computes `1.2.0-beta.4` — but only
logs it; the descriptor's resolved version is the standard calculation's
`1.3.0-beta.0`, not `1.2.0-beta.4`. -/
theorem generateReleaseInfo_suffix_not_incremented :
    semverParse (sliceTagPref "v" draftC.tag_name) =
      some ⟨1, 2, 0, [.str "beta", .num 3]⟩ ∧
    (generateReleaseInfo getVersionInfoSpec tmplId renderBodyConst argsC2).map
      (fun d => d.resolvedVersion) = some "1.3.0-beta.0" ∧
    (generateReleaseInfo getVersionInfoSpec tmplId renderBodyConst argsC2).map
      (fun d => d.resolvedVersion) ≠ some "1.2.0-beta.4" :=
  ⟨by decide, by decide, by decide⟩

/-- Claim C3 (evaluation at the failing input): the draft tag `v1.2.0`
parses but has no pre-release components, so the shape check fails and
reconciliation is abandoned — yet `prSpecificDraftExists` was set before
the checks and `semver.parse` does not throw, so nothing resets it: the
descriptor's found-draft flag remains `true` and directs the caller to
update the draft instead of creating a release. -/
theorem generateReleaseInfo_malformed_draft_flag :
    semverParse (sliceTagPref "v" draftBad.tag_name) = some ⟨1, 2, 0, []⟩ ∧
    (generateReleaseInfo getVersionInfoSpec tmplId renderBodyConst argsC3).map
      (fun d => d.foundPrSpecificDraft) = some true :=
  ⟨by decide, by decide⟩

/-! ### The body marker (claim C9) -/

theorem prMarker_data (n : Nat) :
    (prMarker n).data = "<!-- pr-number: ".data ++ ((toString n).data ++ " -->".data) := by
  unfold prMarker
  rw [String.data_append, String.data_append]
  rw [List.append_assoc]

theorem marker_suffix_jsTrim (l : List Char) (n : Nat) :
    (prMarker n).data.IsSuffix (jsTrimChars (l ++ ((prMarker n).data ++ ['\n']))) := by
  obtain ⟨mh, hmh⟩ : ∃ t, (prMarker n).data = '<' :: t := by
    rw [prMarker_data]; exact ⟨_, rfl⟩
  obtain ⟨mr, hmr⟩ : ∃ t, (prMarker n).data.reverse = '>' :: t := by
    rw [prMarker_data, List.reverse_append, List.reverse_append]
    exact ⟨_, rfl⟩
  unfold jsTrimChars
  rw [List.dropWhile_append]
  have hstop : List.dropWhile isJsWhitespace ((prMarker n).data ++ ['\n']) =
      (prMarker n).data ++ ['\n'] := by
    rw [hmh]
    exact List.dropWhile_cons_of_neg (by decide)
  have key : ∀ T : List Char,
      (prMarker n).data.IsSuffix
        (((T ++ ((prMarker n).data ++ ['\n'])).reverse.dropWhile isJsWhitespace).reverse) := by
    intro T
    rw [List.reverse_append, List.reverse_append]
    rw [show (['\n'] : List Char).reverse = ['\n'] from rfl]
    rw [List.singleton_append, List.cons_append]
    rw [List.dropWhile_cons_of_pos (by decide)]
    rw [hmr, List.cons_append]
    rw [List.dropWhile_cons_of_neg (by decide)]
    rw [← List.cons_append, ← hmr]
    rw [List.reverse_append, List.reverse_reverse, List.reverse_reverse]
    exact ⟨T, rfl⟩
  split
  · rw [hstop]
    exact key []
  · exact key _

theorem empty_str_append (s : String) : "" ++ s = s := by
  obtain ⟨data⟩ := s
  rfl

theorem marker_suffix_body (s : String) (n : Nat) :
    (prMarker n).data.IsSuffix (jsTrim (s ++ ("\n\n" ++ prMarker n ++ "\n"))).data := by
  have hdata : (s ++ ("\n\n" ++ prMarker n ++ "\n")).data =
      (s.data ++ ['\n', '\n']) ++ ((prMarker n).data ++ ['\n']) := by
    rw [String.data_append, String.data_append, String.data_append]
    rw [show ("\n\n" : String).data = ['\n', '\n'] from rfl,
      show ("\n" : String).data = ['\n'] from rfl]
    simp [List.append_assoc]
  show (prMarker n).data.IsSuffix (jsTrimChars (s ++ ("\n\n" ++ prMarker n ++ "\n")).data)
  rw [hdata]
  exact marker_suffix_jsTrim _ n

/-- Claim C9: on every pre-release run with a known change-request number
— a first-time run or an update of a found draft — any descriptor the
engine returns has a body that ends with the marker line
`<!-- pr-number: N -->` for that number, so an updated draft remains
findable by future runs. -/
theorem generateReleaseInfo_body_marker
    (gvi : Option Release → String → Option String → String → String → String →
      Option VersionInfo)
    (tmpl : String → VersionInfo → String) (renderBody : VersionInfo → String)
    (a : GenArgs) (n : Nat) (d : ReleaseInfo)
    (hpre : isPrereleaseRunOf a = true) (hn : a.prNumber = some n)
    (hgen : generateReleaseInfo gvi tmpl renderBody a = some d) :
    (prMarker n).data.IsSuffix d.body.data := by
  simp only [generateReleaseInfo, hpre, hn, Bool.true_and, Option.getD_some] at hgen
  cases hg : gvi a.lastRelease a.config.versionTemplate (a.version <|> a.tag <|> a.name)
      (resolveVersionKeyIncrement a.mergedPullRequests a.config a.isPreRelease)
      a.config.tagPref a.config.prereleaseIdentifier with
  | none => rw [hg] at hgen; exact absurd hgen (by simp)
  | some vi0 =>
    rw [hg] at hgen
    dsimp only at hgen
    cases hrv : vi0.resolvedVersion with
    | none => rw [hrv] at hgen; simp at hgen
    | some rv =>
      rw [hrv] at hgen
      dsimp only at hgen
      rw [Option.some.injEq] at hgen
      subst hgen
      cases hst : (prereleaseReconcile gvi tmpl a).1 <;>
        simp only [hst, Bool.not_true, Bool.not_false, Bool.and_true, Bool.and_false,
          if_true, if_false, Bool.true_and] <;>
        exact marker_suffix_body _ n

/-- Witness for claim C9 at the concrete update run `argsC2`, whose found
draft makes it a non-first-time run. -/
theorem generateReleaseInfo_body_marker_witness :
    (prMarker 42).data.IsSuffix dC9W.body.data :=
  generateReleaseInfo_body_marker getVersionInfoSpec tmplId renderBodyConst argsC2 42 dC9W
    (by decide) rfl rfl

/-! ### The `refs/tags/` target cleanup (claim C10) -/

theorem prereleaseReconcile_target
    (gvi : Option Release → String → Option String → String → String → String →
      Option VersionInfo)
    (tmpl : String → VersionInfo → String) (a : GenArgs) (t : String) :
    prereleaseReconcile gvi tmpl { a with targetCommitish := t } =
      prereleaseReconcile gvi tmpl a := rfl

/-- Claim C10: a target commitish starting with `refs/tags/` is replaced
by the empty string in the returned descriptor (so the platform falls
back to the default branch) while any other value passes through
unchanged, and the target commitish has no effect on any other
descriptor field. -/
theorem generateReleaseInfo_target_cleanup
    (gvi : Option Release → String → Option String → String → String → String →
      Option VersionInfo)
    (tmpl : String → VersionInfo → String) (renderBody : VersionInfo → String)
    (a : GenArgs) :
    (∀ d, generateReleaseInfo gvi tmpl renderBody a = some d →
      d.targetCommitish =
        if "refs/tags/".data.isPrefixOf a.targetCommitish.data then ""
        else a.targetCommitish) ∧
    (∀ t1 t2 : String,
      (generateReleaseInfo gvi tmpl renderBody { a with targetCommitish := t1 }).map
        (fun d => { d with targetCommitish := "" }) =
      (generateReleaseInfo gvi tmpl renderBody { a with targetCommitish := t2 }).map
        (fun d => { d with targetCommitish := "" })) := by
  constructor
  · intro d hgen
    simp only [generateReleaseInfo] at hgen
    cases hg : gvi a.lastRelease a.config.versionTemplate (a.version <|> a.tag <|> a.name)
        (resolveVersionKeyIncrement a.mergedPullRequests a.config a.isPreRelease)
        a.config.tagPref a.config.prereleaseIdentifier with
    | none => rw [hg] at hgen; simp at hgen
    | some vi0 =>
      rw [hg] at hgen
      dsimp only at hgen
      cases hrv : vi0.resolvedVersion with
      | none => rw [hrv] at hgen; simp at hgen
      | some rv =>
        rw [hrv] at hgen
        dsimp only at hgen
        rw [Option.some.injEq] at hgen
        subst hgen
        rfl
  · intro t1 t2
    simp only [generateReleaseInfo, prereleaseReconcile_target]
    dsimp only
    cases hg : gvi a.lastRelease a.config.versionTemplate (a.version <|> a.tag <|> a.name)
        (resolveVersionKeyIncrement a.mergedPullRequests a.config a.isPreRelease)
        a.config.tagPref a.config.prereleaseIdentifier with
    | none => rfl
    | some vi0 =>
      cases hrv : vi0.resolvedVersion with
      | none => dsimp only; rw [hrv]
      | some rv => dsimp only; rw [hrv]; rfl

/-- Witness for claim C10 at a run targeting `refs/tags/v1.0.0`. -/
theorem generateReleaseInfo_target_cleanup_witness :
    dTgtW.targetCommitish =
      (if "refs/tags/".data.isPrefixOf ("refs/tags/v1.0.0" : String).data then ""
        else "refs/tags/v1.0.0") ∧
    dTgtW.targetCommitish = "" ∧
    (generateReleaseInfo getVersionInfoSpec tmplId renderBodyConst
        { argsC2 with targetCommitish := "refs/tags/v1.0.0" }).map
      (fun d => { d with targetCommitish := "" }) =
    (generateReleaseInfo getVersionInfoSpec tmplId renderBodyConst
        { argsC2 with targetCommitish := "main" }).map
      (fun d => { d with targetCommitish := "" }) :=
  ⟨(generateReleaseInfo_target_cleanup getVersionInfoSpec tmplId renderBodyConst argsTgtW).1
      dTgtW rfl,
    by decide,
    (generateReleaseInfo_target_cleanup getVersionInfoSpec tmplId renderBodyConst argsC2).2
      "refs/tags/v1.0.0" "main"⟩

end ReleaseDrafter
